import Mathlib

/-!
Shallow embedding of the wavemq MQTT 3.1.1 packet layer, translated from the
repository sources (chiefly `src/unnamed/part_000`, the current `packet.go`),
together with theorems settling the specification claims.

Bytes are modelled as `Nat` (with explicit masks / moduli where the Go code
relies on fixed-width behaviour); byte slices are `List Nat`; Go strings are
`List Char` (a Go string is a UTF-8 byte sequence, ranged over rune-wise);
fallible functions return an explicit error component.
-/

namespace WaveMQ

/-- Result of `decodeRemainingLength`.  `ok` is the successful `(value, nil)`
return; `malformed` is the `"Malformed remaining length"` error return;
`outOfBounds` models the Go runtime panic raised by `buf[index]` when
`index` is past the end of the slice (the source has no incomplete-input
error path: it indexes the slice directly). -/
inductive DecodeResult where
  | ok (value : Nat)
  | malformed
  | outOfBounds
deriving DecidableEq

/-- Embedding of `encodeRemainingLength` (src/unnamed/part_000 lines 569-581):
repeatedly emit `length % 0x80`, OR-ing in the continuation bit `0x80` when a
non-zero quotient remains, until `length` is zero.  Note the loop guard is
`length > 0`, so for `length = 0` no byte at all is emitted. -/
def encodeRemainingLength (length : Nat) : List Nat :=
  if h : length = 0 then []
  else
    (if 0 < length / 0x80 then (length % 0x80) ||| 0x80 else length % 0x80)
      :: encodeRemainingLength (length / 0x80)
termination_by length
decreasing_by exact Nat.div_lt_self (Nat.pos_of_ne_zero h) (by norm_num)

/-- Loop body of `decodeRemainingLength` (src/unnamed/part_000 lines 587-609).
The Go loop reads `encoded = buf[index]` (panicking when the index is out of
range, modelled by `outOfBounds`), accumulates
`value += uint32(encoded&0x7F) * multiplier`, updates `multiplier *= 128`,
returns the malformed error as soon as `multiplier > 128*128*128`, and
continues while the continuation bit `encoded&0x80` is set.  The dead
`if err != nil` check of the source (a leftover from an earlier
`ReadByte`-based version) has no effect and is omitted. -/
def decodeRemainingLengthAux : List Nat → Nat → Nat → DecodeResult
  | [], _, _ => .outOfBounds
  | encoded :: rest, multiplier, value =>
    if multiplier * 128 > 128 * 128 * 128 then .malformed
    else if encoded &&& 0x80 ≠ 0 then
      decodeRemainingLengthAux rest (multiplier * 128) (value + (encoded &&& 0x7F) * multiplier)
    else .ok (value + (encoded &&& 0x7F) * multiplier)

/-- Embedding of `decodeRemainingLength` (src/unnamed/part_000 lines 587-609):
the loop starts with `multiplier = 1`, `value = 0`, `index = 0`. -/
def decodeRemainingLength (buf : List Nat) : DecodeResult :=
  decodeRemainingLengthAux buf 1 0

/-! UTF-8 string primitives (src/unnamed/part_000 lines 506-563).  A Go
string is a UTF-8 byte sequence; we model it as its list of runes
(`List Char`).  `utf8ByteSize` is the number of bytes of a rune's UTF-8
encoding (Go `utf8.RuneLen` for valid runes). -/

/-- Number of UTF-8 bytes of a rune. -/
def utf8ByteSize (c : Char) : Nat :=
  if c.toNat < 0x80 then 1
  else if c.toNat < 0x800 then 2
  else if c.toNat < 0x10000 then 3
  else 4

/-- Byte length of a Go string (`len(s)` on a string counts UTF-8 bytes). -/
def stringByteLen (s : List Char) : Nat :=
  (s.map utf8ByteSize).sum

/-- Byte offsets at which the runes of `s` start inside its UTF-8 encoding.
Go's `for c := range s` (single loop variable) iterates `c` over exactly
these offsets, NOT over the runes themselves. -/
def runeStartOffsets : List Char → Nat → List Nat
  | [], _ => []
  | c :: cs, off => off :: runeStartOffsets cs (off + utf8ByteSize c)

/-- Go `utf8.ValidRune`: a value is a valid rune when it lies in the Unicode
scalar range (here the offsets fed to it are natural numbers, so the
negative cases cannot arise). -/
def validRune (n : Nat) : Bool :=
  decide (n < 0xD800) || (decide (0xDFFF < n) && decide (n ≤ 0x10FFFF))

/-- UTF-8 encoding of a scalar value (what `buf.WriteRune` appends). -/
def utf8EncodeNat (r : Nat) : List Nat :=
  if r < 0x80 then [r]
  else if r < 0x800 then [0xC0 + r / 64, 0x80 + r % 64]
  else if r < 0x10000 then
    [0xE0 + r / 4096, 0x80 + (r / 64) % 64, 0x80 + r % 64]
  else
    [0xF0 + r / 262144, 0x80 + (r / 4096) % 64, 0x80 + (r / 64) % 64, 0x80 + r % 64]

/-- Validation/write loop of `writeIfValidUtf8` (src/unnamed/part_000 lines
516-526).  The loop header is `for c := range s`, so `c` is the BYTE OFFSET
of each rune and `r := rune(c)` converts that offset — not the character —
into the rune that is validated and written. -/
def writeIfValidUtf8Loop (buf : List Nat) : List Nat → List Nat × Option String
  | [] => (buf, none)
  | c :: rest =>
    if ¬ validRune c then (buf, some "Invalid UTF-8 encoded string")
    else if c = 0 then
      (buf, some "The encoding of the NULL character (U-000) is not allowed in MQTT")
    else if c ≤ 31 ∨ (127 ≤ c ∧ c ≤ 159) then
      (buf, some "UTF-8 control characters are not allowed in MQTT")
    else writeIfValidUtf8Loop (buf ++ utf8EncodeNat c) rest

/-- Embedding of `writeIfValidUtf8` (src/unnamed/part_000 lines 510-528).
When `writeLength` is set, the two prefix bytes `uint16(len(s)) & 0xF0` and
`uint16(len(s)) & 0x0F` are written first; the result pairs the bytes
written to the buffer with the error value (partial writes stay in the
buffer exactly as with Go's `bytes.Buffer`). -/
def writeIfValidUtf8 (s : List Char) (writeLength : Bool) : List Nat × Option String :=
  let buf : List Nat :=
    if writeLength then
      [(stringByteLen s % 65536) &&& 0xF0, (stringByteLen s % 65536) &&& 0x0F]
    else []
  writeIfValidUtf8Loop buf (runeStartOffsets s 0)

/-- Loop of `readIfValidUtf8` (src/unnamed/part_000 lines 546-563).  The
buffer is modelled as the rune sequence `ReadRune` yields (an invalid UTF-8
byte surfaces as U+FFFD, caught by the ReplacementChar branch); `size` is
decremented by each rune's byte width; reading past the end yields Go's
`io.EOF` error.  Crucially `runes` is seeded below with `make([]rune, 1)`,
i.e. one zero rune. -/
def readIfValidUtf8Aux (buf : List Char) (size : Int) (runes : List Char) :
    Except String (List Char) :=
  if size ≤ 0 then .ok runes
  else
    match buf with
    | [] => .error "EOF"
    | r :: rest =>
      if r = Char.ofNat 0 then
        .error "The encoding the the NULL character (U-000) is not allowed in MQTT"
      else if r = Char.ofNat 0xFFFD then
        .error "Invalid UTF-8 encoded rune encountered"
      else if r.toNat ≤ 31 ∨ (127 ≤ r.toNat ∧ r.toNat ≤ 159) then
        .error "UTF-8 control characters are not allowed in MQTT"
      else readIfValidUtf8Aux rest (size - (utf8ByteSize r : Int)) (runes ++ [r])

/-- Embedding of `readIfValidUtf8`: `runes := make([]rune, 1)` allocates a
slice already holding one zero rune, which therefore heads every
successfully returned string. -/
def readIfValidUtf8 (buf : List Char) (size : Int) : Except String (List Char) :=
  readIfValidUtf8Aux buf size [Char.ofNat 0]

/-! CONNECT payload identifier validation (src/unnamed/part_000 lines
199-213).  `ConnectPayload.Encode` first runs
`regexp.MatchString("[^A-Za-z0-9]+", p.Identifier)` and rejects on a match,
then — in an `else if` whose condition is `1 <= l && l <= 23` — returns the
"must be between 1 and 23 bytes" error.  (The remainder of that function does
not compile as Go: it uses undeclared `bytes`, `length` and `buf` variables
and calls `len` on an `interface{}` field, so only this validation prefix is
embedded.) -/

/-- Outcome of the client-identifier validation prefix of
`ConnectPayload.Encode`. -/
inductive IdentCheck where
  /-- "Client identifier must only contain characters A-Z, a-z, or a number" -/
  | charErr
  /-- "Client identifier must be between 1 and 23 bytes" -/
  | lengthErr
  /-- control reaches the `writeIfValidUtf8` call for the identifier -/
  | pass
deriving DecidableEq

/-- True on the characters the regular expression class `[A-Za-z0-9]`
accepts. -/
def isIdentChar (c : Char) : Bool :=
  (decide ('A' ≤ c) && decide (c ≤ 'Z'))
    || (decide ('a' ≤ c) && decide (c ≤ 'z'))
    || (decide ('0' ≤ c) && decide (c ≤ '9'))

/-- Embedding of the identifier validation of `ConnectPayload.Encode`:
`MatchString("[^A-Za-z0-9]+", s)` matches iff some rune of `s` is outside the
class; the length guard is the source's literal `1 <= l && l <= 23` (the
byte length `l` equals the rune count here because the length branch is only
reached when every rune is ASCII alphanumeric). -/
def connectIdentifierCheck (ident : List Char) : IdentCheck :=
  if ident.any (fun c => ¬ isIdentChar c) then .charErr
  else if 1 ≤ ident.length ∧ ident.length ≤ 23 then .lengthErr
  else .pass

/-! Whole-packet encoding (src/unnamed/part_000 lines 105-113, 301-314,
611-650, 677-680).  The `properties` field of the Go `packet` struct is an
`Encodeable` interface value whose only observable behaviour is its
`Encode() ([]byte, error)` result, so it is embedded as that result pair. -/

/-- Control packet type nibble of PUBACK (`ptypePuback`). -/
def ptypePuback : Nat := 0x40

/-- Fixed flag nibble of PUBACK (`pflagsPuback`). -/
def pflagsPuback : Nat := 0x00

/-- Variable header fields of a PUBACK packet (`PublishAckProperties`);
`PacketID` is a `uint16`. -/
structure PublishAckProperties where
  PacketID : Nat
deriving DecidableEq

/-- Embedding of `PublishAckProperties.Encode` (src/unnamed/part_000 lines
306-314): the two bytes written for the packet identifier are
`PacketID & 0xF0` and `PacketID & 0x0F`; the error is always nil. -/
def PublishAckProperties.Encode (h : PublishAckProperties) : List Nat × Option String :=
  ([h.PacketID &&& 0xF0, h.PacketID &&& 0x0F], none)

/-- Embedding of the `packet` struct (src/unnamed/part_000 lines 106-113). -/
structure Packet where
  ptype : Nat
  pflags : Nat
  length : Nat
  properties : List Nat × Option String
  payload : Option (List Nat)
  buffer : List Nat
deriving DecidableEq

/-- Embedding of `packet.encode` (src/unnamed/part_000 lines 614-644): reset
the buffer, encode the variable header (propagating its error), compute the
remaining length from variable header plus payload (payload counted only when
non-nil), then write control byte, remaining-length bytes, variable header
and payload. -/
def Packet.encode (p : Packet) : Packet × Option String :=
  let p0 := { p with buffer := [] }
  match p0.properties with
  | (_, some e) => (p0, some e)
  | (vheaderBytes, none) =>
    let length := vheaderBytes.length +
      (match p0.payload with | some pl => pl.length | none => 0)
    let control := p0.ptype ||| p0.pflags
    ({ p0 with buffer :=
        control :: (encodeRemainingLength length ++ vheaderBytes ++
          (match p0.payload with | some pl => pl | none => [])) }, none)

/-- Embedding of `packet.decode` (src/unnamed/part_000 lines 646-650): the
body is `return err` with `err` its zero value — the packet is left untouched
and nil is returned, whatever the input bytes are. -/
def Packet.decode (p : Packet) (buffer : List Nat) : Packet × Option String :=
  (p, none)

/-- Embedding of `newPacketPublishAck` (src/unnamed/part_000 lines 677-680). -/
def newPacketPublishAck (properties : PublishAckProperties) : Packet :=
  { ptype := ptypePuback, pflags := pflagsPuback, length := 0,
    properties := properties.Encode, payload := none, buffer := [] }

/-- Zero value of the `packet` struct: the record a decoder would populate. -/
def zeroPacket : Packet :=
  { ptype := 0, pflags := 0, length := 0, properties := ([], none),
    payload := none, buffer := [] }

/-! Delivery-assurance state machine.

Modelled from the spec: the repository sources contain no implementation of
the delivery-assurance state machine of spec section 4.3 (the `Session`
struct of `wave.go` holds only an opaque `state interface{}` and nothing
tracks packet identifiers), so the outbound QoS 1 table and its two
operations are modelled from the spec's transition rules: sending a QoS 1
PUBLISH creates an outbound record in `AwaitingPuback` and rejects a
still-in-flight identifier; a matching PUBACK removes the record (terminal);
an acknowledgement with no matching record is reported as a
protocol-sequence violation, not silently dropped (spec sections 4.3, 6
and 7). -/

/-- States of an outbound in-flight exchange record (spec section 4.3). -/
inductive ExchangeState where
  | awaitingPuback
  | awaitingPubrec
  | awaitingPubcomp
deriving DecidableEq

/-- Outbound identifier table of one delivery-assurance state machine
instance, keyed by packet identifier. -/
structure DeliveryTable where
  outbound : List (Nat × ExchangeState)
deriving DecidableEq

/-- Modelled from the spec: state lookup by packet identifier in the
outbound table. -/
def lookupOutbound (t : DeliveryTable) (pid : Nat) : Option ExchangeState :=
  (t.outbound.find? (fun e => e.1 == pid)).map (fun e => e.2)

/-- Modelled from the spec: `beginSend` for a QoS 1 PUBLISH — reject an
identifier that is still in flight, otherwise create an outbound record in
`AwaitingPuback`. -/
def sendPublishQoS1 (t : DeliveryTable) (pid : Nat) : Except String DeliveryTable :=
  match lookupOutbound t pid with
  | some _ => .error "packet identifier already in flight"
  | none => .ok ⟨t.outbound ++ [(pid, ExchangeState.awaitingPuback)]⟩

/-- Modelled from the spec: receiving a PUBACK — a record in
`AwaitingPuback` is removed (terminal); a missing record or a record in any
other state is a protocol-sequence violation. -/
def recvPuback (t : DeliveryTable) (pid : Nat) : Except String DeliveryTable :=
  match lookupOutbound t pid with
  | some ExchangeState.awaitingPuback =>
      .ok ⟨t.outbound.filter (fun e => ! (e.1 == pid))⟩
  | some _ => .error "protocol-sequence violation"
  | none => .error "protocol-sequence violation"

/-! Unfolding and bridging lemmas. -/

theorem encodeRemainingLength_zero : encodeRemainingLength 0 = [] := by
  unfold encodeRemainingLength
  rfl

theorem encodeRemainingLength_pos (n : Nat) (h : n ≠ 0) :
    encodeRemainingLength n =
      (if 0 < n / 0x80 then (n % 0x80) ||| 0x80 else n % 0x80)
        :: encodeRemainingLength (n / 0x80) := by
  conv_lhs => unfold encodeRemainingLength
  simp [h]

theorem decodeAux_cons (b : Nat) (rest : List Nat) (m v : Nat) :
    decodeRemainingLengthAux (b :: rest) m v =
      if m * 128 > 128 * 128 * 128 then .malformed
      else if b &&& 0x80 ≠ 0 then
        decodeRemainingLengthAux rest (m * 128) (v + (b &&& 0x7F) * m)
      else .ok (v + (b &&& 0x7F) * m) := rfl

theorem decodeAux_nil (m v : Nat) :
    decodeRemainingLengthAux [] m v = .outOfBounds := rfl

theorem land127_of_lt : ∀ x, x < 128 → x &&& 127 = x := by decide
theorem land128_of_lt : ∀ x, x < 128 → x &&& 128 = 0 := by decide
theorem land127_lor128 : ∀ x, x < 128 → (x ||| 128) &&& 127 = x := by decide
theorem land128_lor128 : ∀ x, x < 128 → (x ||| 128) &&& 128 = 128 := by decide

/-- Core round-trip lemma: decoding the encoding of a positive value `n`,
starting at multiplier `128 ^ i` with a byte budget `j` satisfying
`n < 128 ^ j` and `i + j ≤ 3`, accumulates exactly `n * 128 ^ i` on top of
the value already accumulated. -/
theorem decodeAux_encode :
    ∀ n i j v, 1 ≤ n → n < 128 ^ j → i + j ≤ 3 →
      decodeRemainingLengthAux (encodeRemainingLength n) (128 ^ i) v
        = DecodeResult.ok (v + n * 128 ^ i) := by
  intro n
  induction n using Nat.strong_induction_on with
  | _ n ih =>
    intro i j v h1 h2 h3
    have hj : 1 ≤ j := by
      by_contra hj
      have : j = 0 := by omega
      subst this
      simp at h2
      omega
    have hi : i ≤ 2 := by omega
    have hmul : ¬ 128 ^ i * 128 > 128 * 128 * 128 := by
      have : (128 : Nat) ^ i * 128 = 128 ^ (i + 1) := by
        rw [pow_succ]
      rw [this]
      have : (128 : Nat) ^ (i + 1) ≤ 128 ^ 3 :=
        Nat.pow_le_pow_right (by norm_num) (by omega)
      simpa using Nat.not_lt.mpr this
    rw [encodeRemainingLength_pos n (by omega), decodeAux_cons]
    rw [if_neg hmul]
    by_cases hq : 0 < n / 128
    · -- continuation byte: more significant digits remain
      rw [if_pos hq]
      rw [land128_lor128 (n % 128) (Nat.mod_lt n (by norm_num))]
      rw [if_pos (by norm_num)]
      rw [land127_lor128 (n % 128) (Nat.mod_lt n (by norm_num))]
      have hrec := ih (n / 128) (Nat.div_lt_self (by omega) (by norm_num)) (i + 1) (j - 1)
        (v + n % 128 * 128 ^ i) hq ?_ (by omega)
      · rw [show (128 : Nat) ^ i * 128 = 128 ^ (i + 1) from (pow_succ 128 i).symm]
        rw [hrec]
        congr 1
        have hsplit : n % 128 + 128 * (n / 128) = n := Nat.mod_add_div n 128
        calc v + n % 128 * 128 ^ i + n / 128 * 128 ^ (i + 1)
            = v + (n % 128 + 128 * (n / 128)) * 128 ^ i := by rw [pow_succ]; ring
          _ = v + n * 128 ^ i := by rw [hsplit]
      · -- byte budget for the quotient
        have : n < 128 ^ (j - 1) * 128 := by
          have : 128 ^ (j - 1) * 128 = 128 ^ j := by
            rw [← pow_succ]
            congr 1
            omega
          omega
        exact Nat.div_lt_iff_lt_mul (by norm_num) |>.mpr this
    · -- terminal byte: quotient is zero, so n < 128
      have hn128 : n < 128 := by
        by_contra hge
        exact hq (Nat.div_pos (by omega) (by norm_num))
      rw [if_neg hq]
      rw [Nat.mod_eq_of_lt hn128]
      rw [land128_of_lt n hn128]
      rw [if_neg (by simp)]
      rw [land127_of_lt n hn128]

/-- Encoding a value below `128 ^ j` emits at most `j` bytes. -/
theorem encodeRemainingLength_length :
    ∀ j n, n < 128 ^ j → (encodeRemainingLength n).length ≤ j := by
  intro j
  induction j with
  | zero =>
    intro n h
    have : n = 0 := by simpa using h
    subst this
    simp [encodeRemainingLength_zero]
  | succ j ihj =>
    intro n h
    by_cases h0 : n = 0
    · subst h0
      simp [encodeRemainingLength_zero]
    · rw [encodeRemainingLength_pos n h0]
      simp only [List.length_cons]
      have hq : n / 128 < 128 ^ j := by
        refine Nat.div_lt_iff_lt_mul (by norm_num) |>.mpr ?_
        calc n < 128 ^ (j + 1) := h
          _ = 128 ^ j * 128 := by rw [pow_succ]
      exact Nat.succ_le_succ (ihj _ hq)

/-- Concrete evaluation: 2097152 = 128³ is the smallest value whose minimal
base-128 encoding needs four bytes. -/
theorem encode_2097152_eq : encodeRemainingLength 2097152 = [128, 128, 128, 1] := by
  rw [encodeRemainingLength_pos 2097152 (by norm_num)]
  norm_num
  rw [encodeRemainingLength_pos 16384 (by norm_num)]
  norm_num
  rw [encodeRemainingLength_pos 128 (by norm_num)]
  norm_num
  rw [encodeRemainingLength_pos 1 (by norm_num)]
  norm_num [encodeRemainingLength_zero]

theorem find?_append_of_none {α : Type} (p : α → Bool) (l₁ l₂ : List α)
    (h : l₁.find? p = none) : (l₁ ++ l₂).find? p = l₂.find? p := by
  induction l₁ with
  | nil => rfl
  | cons a l ih =>
    by_cases ha : p a
    · simp [List.find?_cons, ha] at h
    · simp only [List.find?_cons, ha] at h ⊢
      simp only [List.cons_append, List.find?_cons, ha]
      exact ih h

theorem find?_filter_key_none (pid : Nat) (l : List (Nat × ExchangeState)) :
    (l.filter (fun e => ! (e.1 == pid))).find? (fun e => e.1 == pid) = none := by
  induction l with
  | nil => rfl
  | cons a l ih =>
    by_cases ha : a.1 = pid
    · simp [List.filter_cons, ha, ih]
    · simp [List.filter_cons, ha, List.find?_cons, ih]

theorem recvPuback_of_lookup_none (t : DeliveryTable) (pid : Nat)
    (h : lookupOutbound t pid = none) :
    recvPuback t pid = .error "protocol-sequence violation" := by
  unfold recvPuback
  rw [h]

theorem recvPuback_of_lookup_awaiting (t : DeliveryTable) (pid : Nat)
    (h : lookupOutbound t pid = some ExchangeState.awaitingPuback) :
    recvPuback t pid = .ok ⟨t.outbound.filter (fun e => ! (e.1 == pid))⟩ := by
  unfold recvPuback
  rw [h]

/-! Claim theorems. -/

/-- C1: `packet.decode` is an empty stub, so it cannot be a left inverse of
`packet.encode`.  Decoding the encoded bytes of a concrete PUBACK packet into
a zero-valued packet record returns that record unchanged (with a nil error),
and the unchanged record differs from the packet that was encoded. -/
theorem packet_decode_stub_not_left_inverse :
    Packet.decode zeroPacket
        ((Packet.encode (newPacketPublishAck ⟨4660⟩)).1.buffer)
      = (zeroPacket, none)
    ∧ zeroPacket ≠ newPacketPublishAck ⟨4660⟩ := by
  refine ⟨rfl, ?_⟩
  decide

/-- C2 (amended): the claimed round trip
`decodeRemainingLength (encodeRemainingLength n) = n` holds for
`1 ≤ n ≤ 2097151` (not, as claimed, for all `0 ≤ n ≤ 268435455`: the encoder
emits nothing for 0 and the decoder rejects every 4-byte encoding), and
`encodeRemainingLength` emits at most 4 bytes for every `n ≤ 268435455`. -/
theorem varint_roundtrip_amended :
    (∀ n, 1 ≤ n → n ≤ 2097151 →
        decodeRemainingLength (encodeRemainingLength n) = DecodeResult.ok n)
    ∧ ∀ n, n ≤ 268435455 → (encodeRemainingLength n).length ≤ 4 := by
  constructor
  · intro n h1 h2
    have h := decodeAux_encode n 0 3 0 h1 (by norm_num; omega) (by norm_num)
    simpa [decodeRemainingLength] using h
  · intro n h
    exact encodeRemainingLength_length 4 n (by norm_num; omega)

/-- C2 witness: the amended round trip instantiated at `n = 130`. -/
theorem varint_roundtrip_amended_witness :
    decodeRemainingLength (encodeRemainingLength 130) = DecodeResult.ok 130
    ∧ (encodeRemainingLength 130).length ≤ 4 :=
  ⟨varint_roundtrip_amended.1 130 (by decide) (by decide),
   varint_roundtrip_amended.2 130 (by decide)⟩

/-- C2 counterexample: the round trip fails at both ends of the claimed range.
At `n = 0` the encoder emits no byte and decoding the empty sequence runs off
the end of the buffer (the Go code panics on `buf[0]`); at `n = 2097152`
(a legal MQTT remaining length, ≤ 268435455) the decoder reports the
malformed-remaining-length error on the 4-byte encoding. -/
theorem varint_roundtrip_counterexample :
    decodeRemainingLength (encodeRemainingLength 0) = DecodeResult.outOfBounds
    ∧ decodeRemainingLength (encodeRemainingLength 2097152) = DecodeResult.malformed
    ∧ DecodeResult.outOfBounds ≠ DecodeResult.ok 0
    ∧ DecodeResult.malformed ≠ DecodeResult.ok 2097152 := by
  refine ⟨?_, ?_, by decide, by decide⟩
  · rw [encodeRemainingLength_zero]
    decide
  · rw [encode_2097152_eq]
    decide

/-- C3: `encodeRemainingLength 0` emits no byte at all — the Go loop guard is
`length > 0` — whereas the claim (and the MQTT format the function's comment
says it implements) requires the single byte 0x00. -/
theorem encode_zero_emits_no_bytes :
    encodeRemainingLength 0 = [] ∧ encodeRemainingLength 0 ≠ [0] := by
  refine ⟨encodeRemainingLength_zero, ?_⟩
  rw [encodeRemainingLength_zero]
  decide

/-- C4 counterexample: `[0x80, 0x80, 0x80, 0x01]` is the minimal 4-byte
encoding of 2097152 ≤ 268435455, yet decoding reports the malformed error —
the malformed check fires after the 4th byte, not after a 5th continuation
byte as claimed. -/
theorem four_byte_encoding_rejected :
    encodeRemainingLength 2097152 = [0x80, 0x80, 0x80, 0x01]
    ∧ decodeRemainingLength [0x80, 0x80, 0x80, 0x01] = DecodeResult.malformed
    ∧ DecodeResult.malformed ≠ DecodeResult.ok 2097152 :=
  ⟨encode_2097152_eq, by decide, by decide⟩

/-- C4 (amended): the decoder returns the malformed-remaining-length error
exactly when a 4th byte is read, i.e. exactly when the input holds at least
4 bytes and the first three all carry the continuation bit; and every minimal
1-to-3-byte encoding (the values 1..2097151) decodes without that error. -/
theorem decode_malformed_iff_fourth_byte :
    (∀ buf : List Nat,
        decodeRemainingLength buf = DecodeResult.malformed ↔
          4 ≤ buf.length ∧ ∀ b ∈ buf.take 3, b &&& 0x80 ≠ 0)
    ∧ ∀ n, 1 ≤ n → n ≤ 2097151 →
        decodeRemainingLength (encodeRemainingLength n) = DecodeResult.ok n := by
  constructor
  · intro buf
    match buf with
    | [] => simp [decodeRemainingLength, decodeAux_nil]
    | [b0] =>
      simp only [decodeRemainingLength, decodeAux_cons, decodeAux_nil]
      norm_num
      by_cases h0 : b0 &&& 128 = 0 <;> simp [h0]
    | [b0, b1] =>
      simp only [decodeRemainingLength, decodeAux_cons, decodeAux_nil]
      norm_num
      by_cases h0 : b0 &&& 128 = 0 <;> by_cases h1 : b1 &&& 128 = 0 <;> simp [h0, h1]
    | [b0, b1, b2] =>
      simp only [decodeRemainingLength, decodeAux_cons, decodeAux_nil]
      norm_num
      by_cases h0 : b0 &&& 128 = 0 <;> by_cases h1 : b1 &&& 128 = 0 <;>
        by_cases h2 : b2 &&& 128 = 0 <;> simp [h0, h1, h2]
    | b0 :: b1 :: b2 :: b3 :: rest =>
      simp only [decodeRemainingLength, decodeAux_cons, decodeAux_nil]
      norm_num
      by_cases h0 : b0 &&& 128 = 0 <;> by_cases h1 : b1 &&& 128 = 0 <;>
        by_cases h2 : b2 &&& 128 = 0 <;>
        simp [h0, h1, h2, List.take, Nat.succ_le_succ, Nat.le_add_left]
  · intro n h1 h2
    have h := decodeAux_encode n 0 3 0 h1 (by norm_num; omega) (by norm_num)
    simpa [decodeRemainingLength] using h

/-- C4 witness: the amended characterization instantiated at concrete inputs:
`[0x80, 0x80, 0x80, 0x00]` (three continuation bytes, so a 4th byte is read)
is malformed, and the 2-byte minimal encoding of 300 decodes to 300. -/
theorem decode_malformed_iff_fourth_byte_witness :
    decodeRemainingLength [0x80, 0x80, 0x80, 0x00] = DecodeResult.malformed
    ∧ decodeRemainingLength (encodeRemainingLength 300) = DecodeResult.ok 300 :=
  ⟨(decode_malformed_iff_fourth_byte.1 [0x80, 0x80, 0x80, 0x00]).2
      ⟨by decide, by decide⟩,
   decode_malformed_iff_fourth_byte.2 300 (by decide) (by decide)⟩

/-- C5: the decoder has no incomplete-input error path at all.  On any input
exhausted before a terminating byte it reaches `buf[index]` with `index`
equal to the buffer length — the `outOfBounds` branch of the embedding, a
runtime panic in the Go source — instead of returning a distinct
incomplete-input error. -/
theorem incomplete_input_hits_out_of_bounds :
    decodeRemainingLength [] = DecodeResult.outOfBounds
    ∧ decodeRemainingLength [0x80] = DecodeResult.outOfBounds
    ∧ decodeRemainingLength [0xFF, 0x80] = DecodeResult.outOfBounds := by
  decide

/-- C6: the two bytes written for a 16-bit quantity are `v & 0xF0` and
`v & 0x0F` — nibble masks of the LOW byte — not the big-endian pair
`v >>> 8`, `v & 0xFF` the claim states.  Shown on the `writeIfValidUtf8`
length prefix of an 18-byte string ([16, 2] instead of [0, 18]) and on the
packet-identifier bytes of `PublishAckProperties.Encode` at 4660 = 0x1234
([48, 4] instead of [18, 52]). -/
theorem sixteen_bit_fields_use_nibble_masks :
    (writeIfValidUtf8 (List.replicate 18 'a') true).1 = [16, 2]
    ∧ [16, 2] ≠ [(18 : Nat) >>> 8, (18 : Nat) &&& 0xFF]
    ∧ (PublishAckProperties.Encode ⟨4660⟩).1 = [48, 4]
    ∧ [48, 4] ≠ [(4660 : Nat) >>> 8, (4660 : Nat) &&& 0xFF] := by
  decide

/-- C7: string validation is broken by the `for c := range s` loop: `c` is
the byte index, so the first iteration always validates the "rune" 0 and
every non-empty string — printable or not — is rejected with the NUL-character
error; and `readIfValidUtf8` seeds its result with `make([]rune, 1)`, so even
a successful read returns a string with a spurious leading NUL instead of the
original bytes. -/
theorem utf8_validation_rejects_printable :
    (writeIfValidUtf8 ['A'] true).2
        = some "The encoding of the NULL character (U-000) is not allowed in MQTT"
    ∧ readIfValidUtf8 ['A'] 1 = .ok [Char.ofNat 0, 'A'] := by
  constructor
  · rfl
  · rfl

/-- C8: the length guard of the identifier check is inverted.  A well-formed
identifier such as "abc" is rejected with the very error message describing
the rule it satisfies, while the empty identifier and a 24-character
identifier sail past the check. -/
theorem identifier_length_check_inverted :
    connectIdentifierCheck ['a', 'b', 'c'] = IdentCheck.lengthErr
    ∧ connectIdentifierCheck [] = IdentCheck.pass
    ∧ connectIdentifierCheck (List.replicate 24 'a') = IdentCheck.pass
    ∧ connectIdentifierCheck ['a', '!'] = IdentCheck.charErr := by
  decide

/-- C9: QoS 1 lifecycle in the modelled delivery-assurance state machine.
From any table in which identifier `pid` is not in flight: sending a QoS 1
PUBLISH with identifier `pid` yields a table holding `pid` in
`AwaitingPuback`; receiving the matching PUBACK then yields a table that no
longer contains `pid`; and a further PUBACK for `pid` on that table is
reported as a protocol-sequence violation. -/
theorem qos1_lifecycle (t : DeliveryTable) (pid : Nat)
    (h : lookupOutbound t pid = none) :
    ∃ t₁, sendPublishQoS1 t pid = .ok t₁
      ∧ lookupOutbound t₁ pid = some ExchangeState.awaitingPuback
      ∧ ∃ t₂, recvPuback t₁ pid = .ok t₂
        ∧ lookupOutbound t₂ pid = none
        ∧ recvPuback t₂ pid = .error "protocol-sequence violation" := by
  have hfind : t.outbound.find? (fun e => e.1 == pid) = none := by
    unfold lookupOutbound at h
    exact Option.map_eq_none'.mp h
  have hlook₁ :
      lookupOutbound ⟨t.outbound ++ [(pid, ExchangeState.awaitingPuback)]⟩ pid
        = some ExchangeState.awaitingPuback := by
    unfold lookupOutbound
    rw [find?_append_of_none _ _ _ hfind]
    simp [List.find?_cons]
  have hlook₂ :
      lookupOutbound
          ⟨(t.outbound ++ [(pid, ExchangeState.awaitingPuback)]).filter
            (fun e => ! (e.1 == pid))⟩ pid = none := by
    unfold lookupOutbound
    rw [find?_filter_key_none]
    rfl
  refine ⟨⟨t.outbound ++ [(pid, ExchangeState.awaitingPuback)]⟩, ?_, hlook₁,
    ⟨(t.outbound ++ [(pid, ExchangeState.awaitingPuback)]).filter
      (fun e => ! (e.1 == pid))⟩, ?_, hlook₂, ?_⟩
  · unfold sendPublishQoS1
    rw [h]
  · exact recvPuback_of_lookup_awaiting _ _ hlook₁
  · exact recvPuback_of_lookup_none _ _ hlook₂

/-- C9 witness: the lifecycle instantiated at the spec's test scenario — an
empty table and packet identifier 7. -/
theorem qos1_lifecycle_witness :
    ∃ t₁, sendPublishQoS1 ⟨[]⟩ 7 = .ok t₁
      ∧ lookupOutbound t₁ 7 = some ExchangeState.awaitingPuback
      ∧ ∃ t₂, recvPuback t₁ 7 = .ok t₂
        ∧ lookupOutbound t₂ 7 = none
        ∧ recvPuback t₂ 7 = .error "protocol-sequence violation" :=
  qos1_lifecycle ⟨[]⟩ 7 (by decide)

/-- C10: `decodeRemainingLength` is total (it is a Lean function) and its
result depends only on the first four bytes of the input: the multiplier
check stops the loop at the 4th byte no matter how many continuation bytes
follow. -/
theorem decode_inspects_at_most_four_bytes (buf : List Nat) :
    decodeRemainingLength buf = decodeRemainingLength (buf.take 4) := by
  match buf with
  | [] => rfl
  | [b0] => rfl
  | [b0, b1] => rfl
  | [b0, b1, b2] => rfl
  | [b0, b1, b2, b3] => rfl
  | b0 :: b1 :: b2 :: b3 :: b4 :: rest =>
    show decodeRemainingLength _ = decodeRemainingLength [b0, b1, b2, b3]
    simp only [decodeRemainingLength, decodeAux_cons, decodeAux_nil]
    norm_num

end WaveMQ
